import Mathlib

/-!
Verification development for the Perplexity content-side agent
(src/content/perplexity.js).

The script is embedded shallowly:

* Per-tick samples of the rendered answer text (the value that
  `getLatestResponse() || ""` takes at each iteration of the polling loop)
  are modelled as a function `stream : Nat → String`; the empty string
  stands for the case where `null` is coerced to the empty string.
* Extension-context validity (`isContextValid()`) is modelled by boolean
  timelines: `ctxTop t` is the value observed by the check at the top of
  iteration `t` of the polling loop, `ctxSend t` the value observed inside
  `safeSendMessage` if a send is attempted during iteration `t`, and
  `chanOk t` tells whether `chrome.runtime.sendMessage` succeeds (rather
  than throws) at that moment.
* The `while (Date.now() - startTime < maxWait)` loop sleeps `checkInterval`
  milliseconds per iteration, so it runs at most `maxWait / checkInterval`
  iterations; this bound is the fuel of `streamLoop`.
* The DOM is modelled by `Document`: `query` is `document.querySelector`
  (first match) and `queryAllTexts sel` is the list of `innerText` values of
  `document.querySelectorAll(sel)` in document order.
-/

/-- JS constant `AI_TYPE` of the content script. -/
def aiType : String := "perplexity"

/-- JS constant `maxWait` (10 minutes, in milliseconds). -/
def maxWait : Nat := 600000

/-- JS constant `checkInterval` (milliseconds slept per loop iteration). -/
def checkInterval : Nat := 500

/-- JS constant `stableThreshold` (consecutive stable ticks required). -/
def stableThreshold : Nat := 4

/-- Maximal number of iterations of the sampling loop: the loop condition
`Date.now() - startTime < maxWait` fails once `maxWait / checkInterval`
sleeps of `checkInterval` ms have elapsed. -/
def maxTicks : Nat := maxWait / checkInterval

/-- Model of a raw `chrome.runtime.sendMessage(message)` call: it either
delivers the message or throws (modelled as `Except.error`). `chanOk` tells
which happens. The delivered payload is recorded as the message content. -/
def sendMessageRaw (chanOk : Bool) (content : String) : Except String (List String) :=
  if chanOk then Except.ok [content] else Except.error "Extension context invalidated."

/-- Model of `safeSendMessage`: checks `isContextValid()` (argument
`ctxValid`) immediately before sending and skips the send when invalid; a
throwing send is caught and swallowed. The result is the list of messages
actually delivered; the function is total, so no error ever escapes it. -/
def safeSendMessage (ctxValid : Bool) (chanOk : Bool) (content : String) : List String :=
  if ctxValid then
    match sendMessageRaw chanOk content with
    | Except.ok sent => sent
    | Except.error _ => []
  else []

/-- How one run of the sampling loop (`waitForStreamingComplete`) ends. -/
inductive Outcome where
  /-- The stability threshold was reached at tick `tick`; `emitted` is true
  when the stabilized content differed from `lastCapturedContent` (so a send
  was attempted) and false when emission was suppressed. -/
  | completed (tick : Nat) (emitted : Bool)
  /-- `isContextValid()` was false at the top of iteration `tick`. -/
  | invalidated (tick : Nat)
  /-- The `maxWait` time ceiling was reached without stabilization. -/
  | timedOut
deriving DecidableEq, Repr

/-- Result of one run of the sampling loop: the outcome, the list of
`RESPONSE_CAPTURED` payloads actually delivered to the coordinator during
the run, and the final value of `lastCapturedContent`. -/
structure RunResult where
  outcome : Outcome
  sent : List String
  lastCaptured : String
deriving DecidableEq, Repr

/-- The body of the `while` loop of `waitForStreamingComplete`, embedded as
a fuel-indexed recursion. Arguments after the timelines: remaining fuel,
current tick index `t`, `previousContent`, `stableCount`, and
`lastCapturedContent`. Each iteration re-checks context validity, sleeps,
samples `stream t`, and updates the stability counter exactly as the JS
does; reaching the threshold returns immediately (suppressing the send when
the content equals `lastCapturedContent`, otherwise recording the content as
the new baseline before attempting the send). -/
def streamLoop (stream : Nat → String) (ctxTop ctxSend chanOk : Nat → Bool) :
    Nat → Nat → String → Nat → String → RunResult
  | 0, _, _, _, lastCap => ⟨Outcome.timedOut, [], lastCap⟩
  | fuel + 1, t, prev, sc, lastCap =>
    if ctxTop t then
      let current := stream t
      if current = prev ∧ current ≠ "" then
        if stableThreshold ≤ sc + 1 then
          if current ≠ lastCap then
            ⟨Outcome.completed t true, safeSendMessage (ctxSend t) (chanOk t) current, current⟩
          else
            ⟨Outcome.completed t false, [], lastCap⟩
        else
          streamLoop stream ctxTop ctxSend chanOk fuel (t + 1) current (sc + 1) lastCap
      else
        streamLoop stream ctxTop ctxSend chanOk fuel (t + 1) current 0 lastCap
    else
      ⟨Outcome.invalidated t, [], lastCap⟩

/-- The module-level mutable state of the content script. -/
structure GlobalState where
  isCapturing : Bool
  lastCapturedContent : String
deriving DecidableEq, Repr

/-- Model of `waitForStreamingComplete()`: if a capture session is already
active the call returns immediately (no session, `none` outcome, nothing
sent); otherwise it runs the sampling loop with an empty `previousContent`,
`stableCount = 0` and, via the `finally` block, always clears `isCapturing`
on exit. The result is the new global state, the delivered messages, and
`some` outcome of the session that ran. -/
def waitForStreamingComplete (g : GlobalState) (stream : Nat → String)
    (ctxTop ctxSend chanOk : Nat → Bool) : GlobalState × List String × Option Outcome :=
  if g.isCapturing then (g, [], none)
  else
    let r := streamLoop stream ctxTop ctxSend chanOk maxTicks 0 "" 0 g.lastCapturedContent
    (⟨false, r.lastCaptured⟩, r.sent, some r.outcome)

/-- A DOM node as seen by the mutation-observer callback: whether the node
itself matches a selector, and whether it has a descendant matching one. -/
structure DomNode where
  selfMatches : String → Bool
  hasDescendantMatching : String → Bool

/-- JS constant `responseSelectors` of `checkForResponse`. -/
def responseSelectors : List String :=
  ["[class*=\"answer\"]", "[class*=\"response\"]", "[class*=\"result\"]"]

/-- Model of `checkForResponse(node)`: returns immediately when a capture is
already active; otherwise starts `waitForStreamingComplete` when some
response selector matches the node or one of its descendants. -/
def checkForResponse (g : GlobalState) (node : DomNode) (stream : Nat → String)
    (ctxTop ctxSend chanOk : Nat → Bool) : GlobalState × List String × Option Outcome :=
  if g.isCapturing then (g, [], none)
  else if responseSelectors.any (fun sel => node.selfMatches sel || node.hasDescendantMatching sel) then
    waitForStreamingComplete g stream ctxTop ctxSend chanOk
  else (g, [], none)

/-- An input element as resolved by `injectMessage`. -/
structure InputEl where
  tagName : String
  isContentEditable : Bool

/-- The page DOM as read by the script: `query` models
`document.querySelector` (first matching element, if any) and
`queryAllTexts sel` models the `innerText` values of
`document.querySelectorAll(sel)` in document order. -/
structure Document where
  query : String → Option InputEl
  queryAllTexts : String → List String

/-- JS constant `inputSelectors` of `injectMessage`. -/
def inputSelectors : List String :=
  ["textarea#ask-input",
   "textarea[placeholder*=\"問題\"]",
   "textarea[placeholder*=\"question\"]",
   "[contenteditable=\"true\"]#ask-input"]

/-- The input-resolution loop of `injectMessage`: try each selector with
`document.querySelector` and stop at the first match. -/
def resolveInput (doc : Document) : List String → Option InputEl
  | [] => none
  | sel :: rest =>
    match doc.query sel with
    | some el => some el
    | none => resolveInput doc rest

/-- A DOM write performed by `injectMessage` (value/text assignment or
synthetic event dispatch; `focus` is included for completeness). -/
inductive DomWrite where
  | focus
  | setValue (text : String)
  | setTextContent (text : String)
  | dispatchInput
  | dispatchKeydownEnter
deriving DecidableEq, Repr

/-- Result of `injectMessage`: the returned/thrown value together with the
list of DOM writes performed, in order. -/
structure InjectOutcome where
  result : Except String Unit
  writes : List DomWrite
deriving Repr

/-- Model of `injectMessage(text)`: resolve the input element first; when no
selector matches, throw `Could not find input field` having performed no DOM
write. Otherwise focus, write the text (value for a TEXTAREA, textContent
for a content-editable element, dispatching a synthetic input event either
way), and dispatch the Enter keydown. The post-send fire-and-forget start of
the capture loop is modelled separately via `waitForStreamingComplete`. -/
def injectMessage (doc : Document) (text : String) : InjectOutcome :=
  match resolveInput doc inputSelectors with
  | none => ⟨Except.error "Could not find input field", []⟩
  | some el =>
    let writeStep :=
      if el.tagName = "TEXTAREA" then [DomWrite.setValue text, DomWrite.dispatchInput]
      else if el.isContentEditable then [DomWrite.setTextContent text, DomWrite.dispatchInput]
      else []
    ⟨Except.ok (), DomWrite.focus :: (writeStep ++ [DomWrite.dispatchKeydownEnter])⟩

/-- Model of the JavaScript `String.prototype.trim()`: strip leading and
trailing whitespace. Defined by structural recursion on the character list
(rather than through `String.trim`, whose well-founded recursion does not
reduce inside the kernel) so that concrete instances evaluate. -/
def jsTrim (s : String) : String :=
  String.mk (((s.data.dropWhile Char.isWhitespace).reverse.dropWhile Char.isWhitespace).reverse)

/-- JS constant `selectors` of `getLatestResponse`. -/
def responseTextSelectors : List String :=
  ["[class*=\"answer-container\"] [class*=\"prose\"]",
   "[class*=\"prose\"]",
   "div[class*=\"DefaultAnswer\"]",
   "div[class*=\"answer\"]",
   "main div[class*=\"col\"] > div > div"]

/-- The selector loop of `getLatestResponse`: for each selector, when the
query yields at least one element, take the last one, trim its `innerText`,
and return it when non-empty and longer than 10 characters; in every other
case move on to the next selector. -/
def getLatestResponseAux (doc : Document) : List String → Option String
  | [] => none
  | sel :: rest =>
    match (doc.queryAllTexts sel).getLast? with
    | none => getLatestResponseAux doc rest
    | some lastText =>
      let text := jsTrim lastText
      if text ≠ "" ∧ 10 < text.length then some text
      else getLatestResponseAux doc rest

/-- Model of `getLatestResponse()`. -/
def getLatestResponse (doc : Document) : Option String :=
  getLatestResponseAux doc responseTextSelectors

/-- The acceptable text a single selector yields: the trimmed `innerText` of
the last matching element, provided it is non-empty and longer than the
10-character minimum. -/
def acceptableText (doc : Document) (sel : String) : Option String :=
  match (doc.queryAllTexts sel).getLast? with
  | none => none
  | some lastText =>
    if jsTrim lastText ≠ "" ∧ 10 < (jsTrim lastText).length then some (jsTrim lastText)
    else none

/-- Modelled from the spec: the text-extraction procedure as the spec words
it — resolution stops at the FIRST selector yielding at least one matching
element, and only the last element of that selector is considered; its trimmed
text is accepted only if long enough, otherwise the sample is empty. This
definition exists to be compared with `getLatestResponse`, which is the
faithful embedding of the code. -/
def getLatestResponseSpecModel (doc : Document) : Option String :=
  match responseTextSelectors.find? (fun sel => !(doc.queryAllTexts sel).isEmpty) with
  | none => none
  | some sel =>
    match (doc.queryAllTexts sel).getLast? with
    | none => none
    | some lastText =>
      let text := jsTrim lastText
      if text ≠ "" ∧ 10 < text.length then some text
      else none

/-- Inbound messages handled by the `chrome.runtime.onMessage` listener. -/
inductive InMessage where
  | injectMsg (message : String)
  | getLatest
  | other
deriving DecidableEq, Repr

/-- Responses produced through `sendResponse`. -/
inductive OutResponse where
  | injectResult (success : Bool) (error : Option String)
  | latestContent (content : Option String)
  | noResponse
deriving DecidableEq, Repr

/-- Model of the `chrome.runtime.onMessage` listener. `INJECT_MESSAGE` runs
`injectMessage` and answers with its success or error message; on success
the capture loop is started fire-and-forget (its state change and sends are
part of the result, its outcome does not affect the response).
`GET_LATEST_RESPONSE` answers with a snapshot of `getLatestResponse` and
touches no state. The result is the response, the new global state, and the
`RESPONSE_CAPTURED` payloads delivered as a side effect. -/
def handleMessage (g : GlobalState) (doc : Document) (stream : Nat → String)
    (ctxTop ctxSend chanOk : Nat → Bool) (msg : InMessage) :
    OutResponse × GlobalState × List String :=
  match msg with
  | InMessage.injectMsg text =>
    match (injectMessage doc text).result with
    | Except.error e => (OutResponse.injectResult false (some e), g, [])
    | Except.ok _ =>
      let r := waitForStreamingComplete g stream ctxTop ctxSend chanOk
      (OutResponse.injectResult true none, r.1, r.2.1)
  | InMessage.getLatest => (OutResponse.latestContent (getLatestResponse doc), g, [])
  | InMessage.other => (OutResponse.noResponse, g, [])

/-! ## Stability-streak bookkeeping for the sampling loop -/

/-- The stability streak after tick `t`: the value `stableCount` holds right
after the loop body processed the sample of tick `t` (assuming no early
return happened). Tick 0 always resets, since `previousContent` starts as
the empty string. -/
def streak (stream : Nat → String) : Nat → Nat
  | 0 => 0
  | t + 1 => if stream (t + 1) = stream t ∧ stream (t + 1) ≠ "" then streak stream t + 1 else 0

/-- The value of `previousContent` at the top of tick `t`. -/
def prevOf (stream : Nat → String) : Nat → String
  | 0 => ""
  | t + 1 => stream t

/-- The value of `stableCount` at the top of tick `t` (assuming no early
return before `t`). -/
def scIn (stream : Nat → String) : Nat → Nat
  | 0 => 0
  | t + 1 => streak stream t

/-- The result the loop returns when the stability threshold is reached at
tick `T` with baseline `lastCap`. -/
def completionResult (stream : Nat → String) (ctxSend chanOk : Nat → Bool)
    (T : Nat) (lastCap : String) : RunResult :=
  if stream T ≠ lastCap then
    ⟨Outcome.completed T true, safeSendMessage (ctxSend T) (chanOk T) (stream T), stream T⟩
  else ⟨Outcome.completed T false, [], lastCap⟩

lemma safeSendMessage_length (ctxValid chanOk : Bool) (content : String) :
    (safeSendMessage ctxValid chanOk content).length ≤ 1 := by
  unfold safeSendMessage sendMessageRaw
  cases ctxValid <;> cases chanOk <;> simp

lemma safeSendMessage_invalid (chanOk : Bool) (content : String) :
    safeSendMessage false chanOk content = [] := rfl

lemma safeSendMessage_chanClosed (content : String) :
    safeSendMessage true false content = [] := rfl

lemma streak_zero (stream : Nat → String) : streak stream 0 = 0 := rfl

lemma streak_succ (stream : Nat → String) (t : Nat) :
    streak stream (t + 1) =
      if stream (t + 1) = stream t ∧ stream (t + 1) ≠ "" then streak stream t + 1 else 0 := rfl

lemma streamLoop_succ (stream : Nat → String) (ctxTop ctxSend chanOk : Nat → Bool)
    (fuel t : Nat) (prev : String) (sc : Nat) (lastCap : String) :
    streamLoop stream ctxTop ctxSend chanOk (fuel + 1) t prev sc lastCap =
      if ctxTop t then
        if stream t = prev ∧ stream t ≠ "" then
          if stableThreshold ≤ sc + 1 then
            if stream t ≠ lastCap then
              ⟨Outcome.completed t true, safeSendMessage (ctxSend t) (chanOk t) (stream t), stream t⟩
            else
              ⟨Outcome.completed t false, [], lastCap⟩
          else
            streamLoop stream ctxTop ctxSend chanOk fuel (t + 1) (stream t) (sc + 1) lastCap
        else
          streamLoop stream ctxTop ctxSend chanOk fuel (t + 1) (stream t) 0 lastCap
      else
        ⟨Outcome.invalidated t, [], lastCap⟩ := by
  rfl

lemma streak_le_self (stream : Nat → String) : ∀ t, streak stream t ≤ t := by
  intro t
  induction t with
  | zero => exact Nat.le_refl 0
  | succ t ih =>
    unfold streak
    split
    · exact Nat.succ_le_succ ih
    · exact Nat.zero_le _

lemma streak_of_cond_true {stream : Nat → String} {t : Nat}
    (h : stream t = prevOf stream t ∧ stream t ≠ "") :
    streak stream t = scIn stream t + 1 := by
  cases t with
  | zero => exact absurd h.1 h.2
  | succ s =>
    show streak stream (s + 1) = streak stream s + 1
    rw [streak_succ, if_pos]
    exact ⟨h.1, h.2⟩

lemma streak_of_cond_false {stream : Nat → String} {t : Nat}
    (h : ¬(stream t = prevOf stream t ∧ stream t ≠ "")) :
    streak stream t = 0 := by
  cases t with
  | zero => rfl
  | succ s =>
    rw [streak_succ, if_neg]
    exact h

lemma streak_pos_succ {stream : Nat → String} {t : Nat}
    (h : 0 < streak stream (t + 1)) :
    stream (t + 1) = stream t ∧ stream (t + 1) ≠ "" ∧
      streak stream (t + 1) = streak stream t + 1 := by
  by_cases hc : stream (t + 1) = stream t ∧ stream (t + 1) ≠ ""
  · refine ⟨hc.1, hc.2, ?_⟩
    rw [streak_succ, if_pos hc]
  · exfalso
    have : streak stream (t + 1) = 0 := by rw [streak_succ, if_neg hc]
    omega

/-! ## Behaviour of the sampling loop, by induction on the fuel -/

lemma streamLoop_fuel_zero (stream : Nat → String) (ctxTop ctxSend chanOk : Nat → Bool)
    (t : Nat) (prev : String) (sc : Nat) (lastCap : String) :
    streamLoop stream ctxTop ctxSend chanOk 0 t prev sc lastCap =
      ⟨Outcome.timedOut, [], lastCap⟩ := rfl

lemma streamLoop_invalid_step (stream : Nat → String) (ctxTop ctxSend chanOk : Nat → Bool)
    (fuel t : Nat) (prev : String) (sc : Nat) (lastCap : String)
    (h : ctxTop t = false) :
    streamLoop stream ctxTop ctxSend chanOk (fuel + 1) t prev sc lastCap =
      ⟨Outcome.invalidated t, [], lastCap⟩ := by
  unfold streamLoop
  simp [h]

lemma streamLoop_reset_step (stream : Nat → String) (ctxTop ctxSend chanOk : Nat → Bool)
    (fuel t : Nat) (prev : String) (sc : Nat) (lastCap : String)
    (h : ctxTop t = true) (hc : ¬(stream t = prev ∧ stream t ≠ "")) :
    streamLoop stream ctxTop ctxSend chanOk (fuel + 1) t prev sc lastCap =
      streamLoop stream ctxTop ctxSend chanOk fuel (t + 1) (stream t) 0 lastCap := by
  rw [streamLoop_succ]
  simp only [h, if_true]
  rw [if_neg hc]

lemma streamLoop_inc_step (stream : Nat → String) (ctxTop ctxSend chanOk : Nat → Bool)
    (fuel t : Nat) (prev : String) (sc : Nat) (lastCap : String)
    (h : ctxTop t = true) (hc : stream t = prev ∧ stream t ≠ "")
    (hlt : sc + 1 < stableThreshold) :
    streamLoop stream ctxTop ctxSend chanOk (fuel + 1) t prev sc lastCap =
      streamLoop stream ctxTop ctxSend chanOk fuel (t + 1) (stream t) (sc + 1) lastCap := by
  rw [streamLoop_succ]
  simp only [h, if_true]
  rw [if_pos hc, if_neg (by omega)]

lemma streamLoop_complete_step (stream : Nat → String) (ctxTop ctxSend chanOk : Nat → Bool)
    (fuel t : Nat) (prev : String) (sc : Nat) (lastCap : String)
    (h : ctxTop t = true) (hc : stream t = prev ∧ stream t ≠ "")
    (hge : stableThreshold ≤ sc + 1) :
    streamLoop stream ctxTop ctxSend chanOk (fuel + 1) t prev sc lastCap =
      completionResult stream ctxSend chanOk t lastCap := by
  rw [streamLoop_succ]
  simp only [h, if_true]
  rw [if_pos hc, if_pos hge]
  unfold completionResult
  rfl

lemma streamLoop_completes (stream : Nat → String) (ctxTop ctxSend chanOk : Nat → Bool)
    (T : Nat) (hT : streak stream T = stableThreshold)
    (hbefore : ∀ u, u < T → streak stream u < stableThreshold)
    (hctx : ∀ u, u ≤ T → ctxTop u = true) :
    ∀ fuel t (lastCap : String), t ≤ T → T < t + fuel →
      streamLoop stream ctxTop ctxSend chanOk fuel t (prevOf stream t) (scIn stream t) lastCap =
        completionResult stream ctxSend chanOk T lastCap := by
  intro fuel
  induction fuel with
  | zero =>
    intro t lastCap h1 h2
    omega
  | succ fuel ih =>
    intro t lastCap ht hlt
    have hthr : stableThreshold = 4 := rfl
    by_cases htT : t = T
    · subst htT
      have hpos : 0 < streak stream t := by rw [hT]; omega
      obtain ⟨s, rfl⟩ : ∃ s, t = s + 1 := by
        cases t with
        | zero => rw [streak_zero] at hpos; omega
        | succ s => exact ⟨s, rfl⟩
      obtain ⟨he, hne, hstep⟩ := streak_pos_succ hpos
      have hsc : scIn stream (s + 1) = streak stream s := rfl
      refine streamLoop_complete_step stream ctxTop ctxSend chanOk fuel (s + 1) _ _ lastCap
        (hctx _ (Nat.le_refl _)) ⟨he, hne⟩ ?_
      omega
    · have htT2 : t < T := Nat.lt_of_le_of_ne ht htT
      have hst : streak stream t < stableThreshold := hbefore t htT2
      by_cases hc : stream t = prevOf stream t ∧ stream t ≠ ""
      · have hx := streak_of_cond_true hc
        have hsc : scIn stream (t + 1) = streak stream t := rfl
        rw [streamLoop_inc_step stream ctxTop ctxSend chanOk fuel t _ _ lastCap
          (hctx t (Nat.le_of_lt htT2)) hc (by omega)]
        have harg : scIn stream t + 1 = scIn stream (t + 1) := by omega
        rw [show (streamLoop stream ctxTop ctxSend chanOk fuel (t + 1) (stream t)
              (scIn stream t + 1) lastCap) =
            (streamLoop stream ctxTop ctxSend chanOk fuel (t + 1) (prevOf stream (t + 1))
              (scIn stream (t + 1)) lastCap) from by rw [harg]; rfl]
        exact ih (t + 1) lastCap htT2 (by omega)
      · have hx := streak_of_cond_false hc
        have hsc : scIn stream (t + 1) = streak stream t := rfl
        rw [streamLoop_reset_step stream ctxTop ctxSend chanOk fuel t _ _ lastCap
          (hctx t (Nat.le_of_lt htT2)) hc]
        rw [show (streamLoop stream ctxTop ctxSend chanOk fuel (t + 1) (stream t) 0 lastCap) =
            (streamLoop stream ctxTop ctxSend chanOk fuel (t + 1) (prevOf stream (t + 1))
              (scIn stream (t + 1)) lastCap) from by rw [hsc, hx]; rfl]
        exact ih (t + 1) lastCap htT2 (by omega)

lemma streamLoop_timesOut (stream : Nat → String) (ctxTop ctxSend chanOk : Nat → Bool)
    (N : Nat)
    (hstreak : ∀ u, u < N → streak stream u < stableThreshold)
    (hctx : ∀ u, u < N → ctxTop u = true) :
    ∀ fuel t (lastCap : String), t + fuel ≤ N →
      streamLoop stream ctxTop ctxSend chanOk fuel t (prevOf stream t) (scIn stream t) lastCap =
        ⟨Outcome.timedOut, [], lastCap⟩ := by
  intro fuel
  induction fuel with
  | zero =>
    intro t lastCap hb
    exact streamLoop_fuel_zero stream ctxTop ctxSend chanOk t _ _ lastCap
  | succ fuel ih =>
    intro t lastCap hb
    have htN : t < N := by omega
    have hst : streak stream t < stableThreshold := hstreak t htN
    by_cases hc : stream t = prevOf stream t ∧ stream t ≠ ""
    · have hx := streak_of_cond_true hc
      have hsc : scIn stream (t + 1) = streak stream t := rfl
      rw [streamLoop_inc_step stream ctxTop ctxSend chanOk fuel t _ _ lastCap
        (hctx t htN) hc (by omega)]
      rw [show (streamLoop stream ctxTop ctxSend chanOk fuel (t + 1) (stream t)
            (scIn stream t + 1) lastCap) =
          (streamLoop stream ctxTop ctxSend chanOk fuel (t + 1) (prevOf stream (t + 1))
            (scIn stream (t + 1)) lastCap) from by rw [show scIn stream t + 1 = scIn stream (t + 1) from by omega]; rfl]
      exact ih (t + 1) lastCap (by omega)
    · have hx := streak_of_cond_false hc
      have hsc : scIn stream (t + 1) = streak stream t := rfl
      rw [streamLoop_reset_step stream ctxTop ctxSend chanOk fuel t _ _ lastCap (hctx t htN) hc]
      rw [show (streamLoop stream ctxTop ctxSend chanOk fuel (t + 1) (stream t) 0 lastCap) =
          (streamLoop stream ctxTop ctxSend chanOk fuel (t + 1) (prevOf stream (t + 1))
            (scIn stream (t + 1)) lastCap) from by rw [hsc, hx]; rfl]
      exact ih (t + 1) lastCap (by omega)

lemma streamLoop_invalidatedAt (stream : Nat → String) (ctxTop ctxSend chanOk : Nat → Bool)
    (T : Nat)
    (hstreak : ∀ u, u < T → streak stream u < stableThreshold)
    (hctx : ∀ u, u < T → ctxTop u = true)
    (hT : ctxTop T = false) :
    ∀ fuel t (lastCap : String), t ≤ T → T < t + fuel →
      streamLoop stream ctxTop ctxSend chanOk fuel t (prevOf stream t) (scIn stream t) lastCap =
        ⟨Outcome.invalidated T, [], lastCap⟩ := by
  intro fuel
  induction fuel with
  | zero =>
    intro t lastCap h1 h2
    omega
  | succ fuel ih =>
    intro t lastCap ht hlt
    by_cases htT : t = T
    · subst htT
      exact streamLoop_invalid_step stream ctxTop ctxSend chanOk fuel t _ _ lastCap hT
    · have htT2 : t < T := Nat.lt_of_le_of_ne ht htT
      have hst : streak stream t < stableThreshold := hstreak t htT2
      by_cases hc : stream t = prevOf stream t ∧ stream t ≠ ""
      · have hx := streak_of_cond_true hc
        have hsc : scIn stream (t + 1) = streak stream t := rfl
        rw [streamLoop_inc_step stream ctxTop ctxSend chanOk fuel t _ _ lastCap
          (hctx t htT2) hc (by omega)]
        rw [show (streamLoop stream ctxTop ctxSend chanOk fuel (t + 1) (stream t)
              (scIn stream t + 1) lastCap) =
            (streamLoop stream ctxTop ctxSend chanOk fuel (t + 1) (prevOf stream (t + 1))
              (scIn stream (t + 1)) lastCap) from by rw [show scIn stream t + 1 = scIn stream (t + 1) from by omega]; rfl]
        exact ih (t + 1) lastCap htT2 (by omega)
      · have hx := streak_of_cond_false hc
        have hsc : scIn stream (t + 1) = streak stream t := rfl
        rw [streamLoop_reset_step stream ctxTop ctxSend chanOk fuel t _ _ lastCap
          (hctx t htT2) hc]
        rw [show (streamLoop stream ctxTop ctxSend chanOk fuel (t + 1) (stream t) 0 lastCap) =
            (streamLoop stream ctxTop ctxSend chanOk fuel (t + 1) (prevOf stream (t + 1))
              (scIn stream (t + 1)) lastCap) from by rw [hsc, hx]; rfl]
        exact ih (t + 1) lastCap htT2 (by omega)

lemma streamLoop_sent_length (stream : Nat → String) (ctxTop ctxSend chanOk : Nat → Bool) :
    ∀ fuel t (prev : String) (sc : Nat) (lastCap : String),
      (streamLoop stream ctxTop ctxSend chanOk fuel t prev sc lastCap).sent.length ≤ 1 := by
  intro fuel
  induction fuel with
  | zero =>
    intro t prev sc lastCap
    rw [streamLoop_fuel_zero]
    simp
  | succ fuel ih =>
    intro t prev sc lastCap
    rw [streamLoop_succ]
    split
    · split
      · split
        · split
          · exact safeSendMessage_length _ _ _
          · simp
        · exact ih _ _ _ _
      · exact ih _ _ _ _
    · simp

lemma waitForStreamingComplete_not_capturing (baseline : String) (stream : Nat → String)
    (ctxTop ctxSend chanOk : Nat → Bool) :
    waitForStreamingComplete ⟨false, baseline⟩ stream ctxTop ctxSend chanOk =
      ((⟨false, (streamLoop stream ctxTop ctxSend chanOk maxTicks 0 "" 0 baseline).lastCaptured⟩ :
          GlobalState),
       (streamLoop stream ctxTop ctxSend chanOk maxTicks 0 "" 0 baseline).sent,
       some (streamLoop stream ctxTop ctxSend chanOk maxTicks 0 "" 0 baseline).outcome) := rfl

lemma streamLoop_completes_from_zero (stream : Nat → String) (ctxTop ctxSend chanOk : Nat → Bool)
    (T : Nat) (hT : streak stream T = stableThreshold)
    (hbefore : ∀ u, u < T → streak stream u < stableThreshold)
    (hctx : ∀ u, u ≤ T → ctxTop u = true)
    (lastCap : String) (hbound : T < maxTicks) :
    streamLoop stream ctxTop ctxSend chanOk maxTicks 0 "" 0 lastCap =
      completionResult stream ctxSend chanOk T lastCap :=
  streamLoop_completes stream ctxTop ctxSend chanOk T hT hbefore hctx maxTicks 0 lastCap
    (Nat.zero_le T) (by omega)

lemma streamLoop_timesOut_from_zero (stream : Nat → String) (ctxTop ctxSend chanOk : Nat → Bool)
    (hstreak : ∀ u, u < maxTicks → streak stream u < stableThreshold)
    (hctx : ∀ u, u < maxTicks → ctxTop u = true)
    (lastCap : String) :
    streamLoop stream ctxTop ctxSend chanOk maxTicks 0 "" 0 lastCap =
      ⟨Outcome.timedOut, [], lastCap⟩ :=
  streamLoop_timesOut stream ctxTop ctxSend chanOk maxTicks hstreak hctx maxTicks 0 lastCap
    (by omega)

lemma streamLoop_invalidatedAt_from_zero (stream : Nat → String)
    (ctxTop ctxSend chanOk : Nat → Bool) (T : Nat)
    (hstreak : ∀ u, u < T → streak stream u < stableThreshold)
    (hctx : ∀ u, u < T → ctxTop u = true)
    (hT : ctxTop T = false)
    (lastCap : String) (hbound : T < maxTicks) :
    streamLoop stream ctxTop ctxSend chanOk maxTicks 0 "" 0 lastCap =
      ⟨Outcome.invalidated T, [], lastCap⟩ :=
  streamLoop_invalidatedAt stream ctxTop ctxSend chanOk T hstreak hctx hT maxTicks 0 lastCap
    (Nat.zero_le T) (by omega)

lemma streak_eq_zero_of_changes (stream : Nat → String) (L : Nat)
    (hchange : ∀ u, 1 ≤ u → u ≤ L → stream u ≠ stream (u - 1)) :
    ∀ u, u ≤ L → streak stream u = 0 := by
  intro u hu
  cases u with
  | zero => rfl
  | succ s =>
    rw [streak_succ, if_neg]
    intro hcond
    exact hchange (s + 1) (by omega) hu (by simpa using hcond.1)

lemma streak_constant_from (stream : Nat → String) (L : Nat) (v : String) (hv : v ≠ "")
    (hzero : streak stream L = 0) (hconst : ∀ u, L ≤ u → stream u = v) :
    ∀ k, streak stream (L + k) = k := by
  intro k
  induction k with
  | zero => exact hzero
  | succ k ih =>
    have h1 : stream (L + k + 1) = v := hconst _ (by omega)
    have h2 : stream (L + k) = v := hconst _ (by omega)
    have : streak stream (L + k + 1) = streak stream (L + k) + 1 := by
      rw [streak_succ, if_pos]
      exact ⟨h1.trans h2.symm, h1 ▸ hv⟩
    rw [show L + (k + 1) = L + k + 1 from rfl, this, ih]

/-- Four consecutive identical non-empty samples starting at tick `t`. -/
def fourIdenticalFrom (stream : Nat → String) (t : Nat) : Prop :=
  stream t ≠ "" ∧ stream (t + 1) = stream t ∧ stream (t + 2) = stream t ∧
    stream (t + 3) = stream t

lemma streak_lt_of_no_fourIdentical (stream : Nat → String)
    (h : ∀ t, ¬ fourIdenticalFrom stream t) :
    ∀ u, streak stream u < stableThreshold := by
  intro u
  by_contra hcon
  push_neg at hcon
  have hthr : stableThreshold = 4 := rfl
  have hu3 : 3 ≤ u := by
    have := streak_le_self stream u
    omega
  obtain ⟨c, rfl⟩ : ∃ c, u = c + 3 := ⟨u - 3, by omega⟩
  have p3 : 0 < streak stream (c + 3) := by omega
  obtain ⟨e3, ne3, s3⟩ := streak_pos_succ (t := c + 2) p3
  have e3x : stream (c + 3) = stream (c + 2) := e3
  have s3x : streak stream (c + 3) = streak stream (c + 2) + 1 := s3
  have p2 : 0 < streak stream (c + 2) := by omega
  obtain ⟨e2, ne2, s2⟩ := streak_pos_succ (t := c + 1) p2
  have e2x : stream (c + 2) = stream (c + 1) := e2
  have s2x : streak stream (c + 2) = streak stream (c + 1) + 1 := s2
  have p1 : 0 < streak stream (c + 1) := by omega
  obtain ⟨e1, ne1, s1⟩ := streak_pos_succ (t := c) p1
  refine h c ⟨?_, e1, ?_, ?_⟩
  · exact fun hc => ne1 (e1.trans hc)
  · exact e2x.trans e1
  · exact e3x.trans (e2x.trans e1)

lemma resolveInput_cons (doc : Document) (sel : String) (rest : List String) :
    resolveInput doc (sel :: rest) =
      match doc.query sel with
      | some el => some el
      | none => resolveInput doc rest := rfl

lemma resolveInput_eq_none (doc : Document) :
    ∀ l : List String, (∀ sel ∈ l, doc.query sel = none) → resolveInput doc l = none := by
  intro l
  induction l with
  | nil => intro _; rfl
  | cons a l ih =>
    intro hall
    rw [resolveInput_cons, hall a (List.mem_cons_self a l)]
    exact ih (fun sel hs => hall sel (List.mem_cons_of_mem a hs))

lemma resolveInput_eq_findSome (doc : Document) :
    ∀ l : List String, resolveInput doc l = l.findSome? doc.query := by
  intro l
  induction l with
  | nil => rfl
  | cons a l ih =>
    rw [resolveInput_cons, List.findSome?_cons]
    cases doc.query a with
    | none => exact ih
    | some el => rfl

lemma getLatestResponseAux_cons (doc : Document) (sel : String) (rest : List String) :
    getLatestResponseAux doc (sel :: rest) =
      match (doc.queryAllTexts sel).getLast? with
      | none => getLatestResponseAux doc rest
      | some lastText =>
        if jsTrim lastText ≠ "" ∧ 10 < (jsTrim lastText).length then some (jsTrim lastText)
        else getLatestResponseAux doc rest := rfl

lemma getLatestResponseAux_eq_findSome (doc : Document) :
    ∀ l : List String,
      getLatestResponseAux doc l = l.findSome? (fun sel => acceptableText doc sel) := by
  intro l
  induction l with
  | nil => rfl
  | cons a l ih =>
    rw [getLatestResponseAux_cons, List.findSome?_cons]
    cases hq : (doc.queryAllTexts a).getLast? with
    | none =>
      have ha : acceptableText doc a = none := by
        unfold acceptableText
        rw [hq]
      rw [ha]
      exact ih
    | some lt =>
      by_cases hacc : jsTrim lt ≠ "" ∧ 10 < (jsTrim lt).length
      · have ha : acceptableText doc a = some (jsTrim lt) := by
          unfold acceptableText
          rw [hq]
          exact if_pos hacc
        rw [ha]
        show (if jsTrim lt ≠ "" ∧ 10 < (jsTrim lt).length then some (jsTrim lt)
              else getLatestResponseAux doc l) = some (jsTrim lt)
        rw [if_pos hacc]
      · have ha : acceptableText doc a = none := by
          unfold acceptableText
          rw [hq]
          exact if_neg hacc
        rw [ha]
        show (if jsTrim lt ≠ "" ∧ 10 < (jsTrim lt).length then some (jsTrim lt)
              else getLatestResponseAux doc l) =
            List.findSome? (fun sel => acceptableText doc sel) l
        rw [if_neg hacc]
        exact ih

lemma capture_completes_after_last_change (stream : Nat → String) (L : Nat)
    (v baseline : String) (hv : v ≠ "") (hvb : v ≠ baseline)
    (hchange : ∀ u, 1 ≤ u → u ≤ L → stream u ≠ stream (u - 1))
    (hconst : ∀ u, L ≤ u → stream u = v)
    (hbound : L + stableThreshold < maxTicks) :
    waitForStreamingComplete ⟨false, baseline⟩ stream
        (fun _ => true) (fun _ => true) (fun _ => true) =
      (⟨false, v⟩, [v], some (Outcome.completed (L + stableThreshold) true)) := by
  have hthr : stableThreshold = 4 := rfl
  have hz : ∀ u, u ≤ L → streak stream u = 0 := streak_eq_zero_of_changes stream L hchange
  have hk : ∀ k, streak stream (L + k) = k :=
    streak_constant_from stream L v hv (hz L (Nat.le_refl L)) hconst
  have hT : streak stream (L + stableThreshold) = stableThreshold := hk stableThreshold
  have hbefore : ∀ u, u < L + stableThreshold → streak stream u < stableThreshold := by
    intro u hu
    rcases le_or_lt u L with hc | hc
    · rw [hz u hc]
      omega
    · have he : u = L + (u - L) := by omega
      rw [he, hk]
      omega
  have hrun := streamLoop_completes_from_zero stream
    (fun _ => true) (fun _ => true) (fun _ => true) (L + stableThreshold)
    hT hbefore (fun u _ => rfl) baseline hbound
  rw [waitForStreamingComplete_not_capturing, hrun]
  unfold completionResult
  rw [hconst (L + stableThreshold) (Nat.le_add_right L stableThreshold), if_pos hvb]
  rfl

/-- C1: stability law of the sampling loop. For a simulated content stream
that changes every tick through tick `L` and afterwards holds constant at a
non-empty value `v` differing from the emission baseline, the detector
completes and emits the payload `v` exactly at tick `L + stableThreshold`
(ticks counted from 0, one sample per tick) — the equation pins the
completion tick, so completion happens at that tick and at no earlier one.
The concrete spec scenario (stream "" , "A", "AB", "ABC", "ABC", ... with
threshold 4, emission at tick 7) is the witness below. -/
theorem C1_stability_law (stream : Nat → String) (L : Nat)
    (v baseline : String) (hv : v ≠ "") (hvb : v ≠ baseline)
    (hchange : ∀ u, 1 ≤ u → u ≤ L → stream u ≠ stream (u - 1))
    (hconst : ∀ u, L ≤ u → stream u = v)
    (hbound : L + stableThreshold < maxTicks) :
    waitForStreamingComplete ⟨false, baseline⟩ stream
        (fun _ => true) (fun _ => true) (fun _ => true) =
      (⟨false, v⟩, [v], some (Outcome.completed (L + stableThreshold) true)) :=
  capture_completes_after_last_change stream L v baseline hv hvb hchange hconst hbound

/-- The spec scenario stream: "", "A", "AB", "ABC", then "ABC" forever. -/
def scenarioStream : Nat → String := fun t =>
  if t = 0 then "" else if t = 1 then "A" else if t = 2 then "AB" else "ABC"

/-- Witness for C1: the spec scenario stream (last change at tick 3,
threshold 4) emits exactly the payload "ABC" at tick 7. -/
theorem C1_stability_law_witness :
    waitForStreamingComplete ⟨false, ""⟩ scenarioStream
        (fun _ => true) (fun _ => true) (fun _ => true) =
      (⟨false, "ABC"⟩, ["ABC"], some (Outcome.completed 7 true)) := by
  have h := C1_stability_law scenarioStream 3 "ABC" "" (by decide) (by decide)
    (by
      intro u h1 h2
      interval_cases u <;> decide)
    (by
      intro u hu
      have h0 : u ≠ 0 := by omega
      have h1 : u ≠ 1 := by omega
      have h2 : u ≠ 2 := by omega
      simp [scenarioStream, h0, h1, h2])
    (by decide)
  exact h

/-- C8: first-tick edge case. `previousContent` starts as the empty string,
so the first sample of a session never increments `stableCount` (first
conjunct: the streak after tick 0 is 0 for every stream, non-empty first
samples included). Consequently a stream that is constant at a non-empty
value from the very first tick completes only at 0-based tick index
`stableThreshold`, i.e. on the (stableThreshold + 1)-th sample of the
session — counting ticks from 1 as the claim does, at tick
`stableThreshold + 1` and never at tick `stableThreshold`. -/
theorem C8_first_tick_edge (stream : Nat → String) (v baseline : String)
    (hv : v ≠ "") (hvb : v ≠ baseline) (hconst : ∀ t, stream t = v) :
    (∀ s : Nat → String, streak s 0 = 0) ∧
    waitForStreamingComplete ⟨false, baseline⟩ stream
        (fun _ => true) (fun _ => true) (fun _ => true) =
      (⟨false, v⟩, [v], some (Outcome.completed stableThreshold true)) := by
  refine ⟨fun s => rfl, ?_⟩
  have h := capture_completes_after_last_change stream 0 v baseline hv hvb
    (by intro u h1 h2; omega)
    (fun u _ => hconst u)
    (by decide)
  simpa using h

/-- Witness for C8: a stream constant at "STABLE FROM START" completes on
the 5th sample (0-based tick 4 = stableThreshold), not the 4th. -/
theorem C8_first_tick_edge_witness :
    (∀ s : Nat → String, streak s 0 = 0) ∧
    waitForStreamingComplete ⟨false, ""⟩ (fun _ => "STABLE FROM START")
        (fun _ => true) (fun _ => true) (fun _ => true) =
      (⟨false, "STABLE FROM START"⟩, ["STABLE FROM START"],
       some (Outcome.completed stableThreshold true)) :=
  C8_first_tick_edge (fun _ => "STABLE FROM START") "STABLE FROM START" ""
    (by decide) (by decide) (fun _ => rfl)

/-- C2: mutual exclusion of sampling sessions. While a session is active
(`isCapturing = true`), a further start request — whether through the
post-submit trigger (`waitForStreamingComplete`) or the mutation-observer
trigger (`checkForResponse`) — returns immediately: the global state is
unchanged, no session is created (`none` outcome), and nothing is sent, so
the overlapping trigger contributes no duplicate `RESPONSE_CAPTURED`. -/
theorem C2_mutual_exclusion (g : GlobalState) (hg : g.isCapturing = true)
    (node : DomNode) (stream : Nat → String) (ctxTop ctxSend chanOk : Nat → Bool) :
    waitForStreamingComplete g stream ctxTop ctxSend chanOk = (g, [], none) ∧
    checkForResponse g node stream ctxTop ctxSend chanOk = (g, [], none) := by
  constructor
  · unfold waitForStreamingComplete
    rw [if_pos hg]
  · unfold checkForResponse
    rw [if_pos hg]

/-- Witness for C2: with a session active, both trigger paths are no-ops. -/
theorem C2_mutual_exclusion_witness :
    waitForStreamingComplete ⟨true, "X"⟩ (fun _ => "Y")
        (fun _ => true) (fun _ => true) (fun _ => true) = (⟨true, "X"⟩, [], none) ∧
    checkForResponse ⟨true, "X"⟩ ⟨fun _ => true, fun _ => true⟩ (fun _ => "Y")
        (fun _ => true) (fun _ => true) (fun _ => true) = (⟨true, "X"⟩, [], none) :=
  C2_mutual_exclusion ⟨true, "X"⟩ rfl ⟨fun _ => true, fun _ => true⟩ (fun _ => "Y")
    (fun _ => true) (fun _ => true) (fun _ => true)

/-- C3: suppression law. When the session stabilizes at tick `T`: if the
stabilized sample equals the baseline `lastCapturedContent`, nothing is sent
and the baseline is unchanged; otherwise exactly one `RESPONSE_CAPTURED`
carrying that sample is sent and the baseline becomes the sample. The third
conjunct: every session delivers at most one message, whatever the stream,
validity timelines, and initial state. -/
theorem C3_suppression_law (stream : Nat → String) (T : Nat) (baseline : String)
    (hT : streak stream T = stableThreshold)
    (hbefore : ∀ u, u < T → streak stream u < stableThreshold)
    (hbound : T < maxTicks) :
    (stream T = baseline →
      waitForStreamingComplete ⟨false, baseline⟩ stream
          (fun _ => true) (fun _ => true) (fun _ => true) =
        (⟨false, baseline⟩, [], some (Outcome.completed T false))) ∧
    (stream T ≠ baseline →
      waitForStreamingComplete ⟨false, baseline⟩ stream
          (fun _ => true) (fun _ => true) (fun _ => true) =
        (⟨false, stream T⟩, [stream T], some (Outcome.completed T true))) ∧
    (∀ (g : GlobalState) (s : Nat → String) (c1 c2 c3 : Nat → Bool),
      (waitForStreamingComplete g s c1 c2 c3).2.1.length ≤ 1) := by
  have hrun := streamLoop_completes_from_zero stream
    (fun _ => true) (fun _ => true) (fun _ => true) T hT hbefore (fun u _ => rfl)
    baseline hbound
  refine ⟨?_, ?_, ?_⟩
  · intro heq
    rw [waitForStreamingComplete_not_capturing, hrun]
    unfold completionResult
    rw [if_neg (not_not_intro heq)]
  · intro hne
    rw [waitForStreamingComplete_not_capturing, hrun]
    unfold completionResult
    rw [if_pos hne]
    rfl
  · intro g s c1 c2 c3
    unfold waitForStreamingComplete
    split
    · simp
    · exact streamLoop_sent_length s c1 c2 c3 maxTicks 0 "" 0 g.lastCapturedContent

/-- Witness for C3: a stream constant at "SUPPRESSED SAMPLE TEXT"
stabilizes at tick 4 on content equal to the baseline, so the session
completes without sending and the baseline is unchanged. -/
theorem C3_suppression_law_witness :
    ((fun _ => "SUPPRESSED SAMPLE TEXT") 4 = "SUPPRESSED SAMPLE TEXT" →
      waitForStreamingComplete ⟨false, "SUPPRESSED SAMPLE TEXT"⟩
          (fun _ => "SUPPRESSED SAMPLE TEXT")
          (fun _ => true) (fun _ => true) (fun _ => true) =
        (⟨false, "SUPPRESSED SAMPLE TEXT"⟩, [], some (Outcome.completed 4 false))) ∧
    ((fun _ => "SUPPRESSED SAMPLE TEXT") 4 ≠ "SUPPRESSED SAMPLE TEXT" →
      waitForStreamingComplete ⟨false, "SUPPRESSED SAMPLE TEXT"⟩
          (fun _ => "SUPPRESSED SAMPLE TEXT")
          (fun _ => true) (fun _ => true) (fun _ => true) =
        (⟨false, "SUPPRESSED SAMPLE TEXT"⟩, ["SUPPRESSED SAMPLE TEXT"],
         some (Outcome.completed 4 true))) ∧
    (∀ (g : GlobalState) (s : Nat → String) (c1 c2 c3 : Nat → Bool),
      (waitForStreamingComplete g s c1 c2 c3).2.1.length ≤ 1) :=
  C3_suppression_law (fun _ => "SUPPRESSED SAMPLE TEXT") 4 "SUPPRESSED SAMPLE TEXT"
    (by decide)
    (by intro u hu; interval_cases u <;> decide)
    (by decide)

/-- C4: cancellation on host invalidation. With a validity timeline that
flips to invalid at tick `T` (and starts invalid from then on), a session
that has not stabilized before `T` ends exactly at tick `T` — the first
iteration observing the flip, hence within one tick interval — with zero
outbound messages. Second conjunct: `safeSendMessage` with an invalid
context sends nothing, whatever the channel state — every send is guarded
by a validity check immediately prior. Third conjunct: when the channel
itself fails, the raw send errors but `safeSendMessage` swallows it and
returns normally with nothing sent. -/
theorem C4_cancellation (stream : Nat → String) (T : Nat) (baseline : String)
    (ctxSend chanOk : Nat → Bool)
    (hnc : ∀ u, u < T → streak stream u < stableThreshold)
    (hbound : T < maxTicks) :
    waitForStreamingComplete ⟨false, baseline⟩ stream
        (fun t => decide (t < T)) ctxSend chanOk =
      (⟨false, baseline⟩, [], some (Outcome.invalidated T)) ∧
    (∀ (chan : Bool) (content : String), safeSendMessage false chan content = []) ∧
    (∀ content : String,
      sendMessageRaw false content = Except.error "Extension context invalidated." ∧
      safeSendMessage true false content = []) := by
  refine ⟨?_, fun chan content => rfl, fun content => ⟨rfl, rfl⟩⟩
  have hrun := streamLoop_invalidatedAt_from_zero stream
    (fun t => decide (t < T)) ctxSend chanOk T hnc
    (fun u hu => by simp [hu]) (by simp) baseline hbound
  rw [waitForStreamingComplete_not_capturing, hrun]

/-- Witness for C4: validity flips at tick 5 over a never-stabilizing
stream; the session ends at tick 5 with nothing sent. -/
theorem C4_cancellation_witness :
    waitForStreamingComplete ⟨false, ""⟩ (fun _ => "")
        (fun t => decide (t < 5)) (fun _ => true) (fun _ => true) =
      (⟨false, ""⟩, [], some (Outcome.invalidated 5)) ∧
    (∀ (chan : Bool) (content : String), safeSendMessage false chan content = []) ∧
    (∀ content : String,
      sendMessageRaw false content = Except.error "Extension context invalidated." ∧
      safeSendMessage true false content = []) :=
  C4_cancellation (fun _ => "") 5 "" (fun _ => true) (fun _ => true)
    (by intro u hu; interval_cases u <;> decide)
    (by decide)

/-- C7: timeout semantics. A stream that never produces `stableThreshold`
consecutive identical non-empty samples cannot satisfy the completion
criterion of the loop, so the session runs all `maxTicks` iterations
(the 600000 ms ceiling at 500 ms per tick) and ends with outcome
`timedOut`: nothing is sent, the baseline is unchanged, no error is
surfaced (the result is an ordinary value), and the `isCapturing` flag is
false in the final state. -/
theorem C7_timeout (stream : Nat → String) (baseline : String)
    (ctxSend chanOk : Nat → Bool)
    (h : ∀ t, ¬ fourIdenticalFrom stream t) :
    waitForStreamingComplete ⟨false, baseline⟩ stream
        (fun _ => true) ctxSend chanOk =
      (⟨false, baseline⟩, [], some Outcome.timedOut) := by
  have hs := streak_lt_of_no_fourIdentical stream h
  have hrun := streamLoop_timesOut_from_zero stream (fun _ => true) ctxSend chanOk
    (fun u _ => hs u) (fun u _ => rfl) baseline
  rw [waitForStreamingComplete_not_capturing, hrun]

/-- Witness for C7: the always-empty stream (no acceptable text ever
found) times out silently with no emission. -/
theorem C7_timeout_witness :
    waitForStreamingComplete ⟨false, ""⟩ (fun _ => "")
        (fun _ => true) (fun _ => true) (fun _ => true) =
      (⟨false, ""⟩, [], some Outcome.timedOut) :=
  C7_timeout (fun _ => "") "" (fun _ => true) (fun _ => true)
    (fun _ ht => ht.1 rfl)

/-- C5: injection failure semantics. In a DOM where no input selector
matches, `injectMessage` throws exactly the error "Could not find input
field" having performed no DOM write (resolution happens first), and the
`INJECT_MESSAGE` request is answered with success `false` and that error
message, with unchanged state and no outbound messages. -/
theorem C5_injection_failure (doc : Document) (text : String)
    (hdoc : ∀ sel ∈ inputSelectors, doc.query sel = none)
    (g : GlobalState) (stream : Nat → String) (ctxTop ctxSend chanOk : Nat → Bool) :
    injectMessage doc text =
      ⟨Except.error "Could not find input field", []⟩ ∧
    handleMessage g doc stream ctxTop ctxSend chanOk (InMessage.injectMsg text) =
      (OutResponse.injectResult false (some "Could not find input field"), g, []) := by
  have hres : resolveInput doc inputSelectors = none :=
    resolveInput_eq_none doc inputSelectors hdoc
  have hinj : injectMessage doc text =
      ⟨Except.error "Could not find input field", []⟩ := by
    unfold injectMessage
    rw [hres]
  refine ⟨hinj, ?_⟩
  show (match (injectMessage doc text).result with
      | Except.error e => (OutResponse.injectResult false (some e), g, ([] : List String))
      | Except.ok _ =>
        let r := waitForStreamingComplete g stream ctxTop ctxSend chanOk
        (OutResponse.injectResult true none, r.1, r.2.1)) =
    (OutResponse.injectResult false (some "Could not find input field"), g, [])
  rw [hinj]

/-- Witness for C5: a DOM with no elements at all rejects injection with
the expected error and performs no DOM write. -/
theorem C5_injection_failure_witness :
    injectMessage ⟨fun _ => none, fun _ => []⟩ "hello" =
      ⟨Except.error "Could not find input field", []⟩ ∧
    handleMessage ⟨false, ""⟩ ⟨fun _ => none, fun _ => []⟩ (fun _ => "")
        (fun _ => true) (fun _ => true) (fun _ => true)
        (InMessage.injectMsg "hello") =
      (OutResponse.injectResult false (some "Could not find input field"),
       ⟨false, ""⟩, []) :=
  C5_injection_failure ⟨fun _ => none, fun _ => []⟩ "hello"
    (fun _ _ => rfl) ⟨false, ""⟩ (fun _ => "")
    (fun _ => true) (fun _ => true) (fun _ => true)

/-- A DOM in which the first response selector matches an element whose
trimmed text is too short (5 characters), while the second response
selector matches an element with an acceptable long text. -/
def docPriority : Document :=
  ⟨fun _ => none,
   fun sel =>
     if sel = "[class*=\"answer-container\"] [class*=\"prose\"]" then ["short"]
     else if sel = "[class*=\"prose\"]" then ["  This is a long enough answer.  "]
     else []⟩

/-- C6 counterexample: the claim says resolution uses the first candidate
that yields a matching element, so on `docPriority` the chosen element
would be the short one of the first selector and no acceptable text would
result (the sample would be null, as `getLatestResponseSpecModel`
computes). The code instead falls through to the second selector and
returns its long text: the two disagree on this DOM, refuting the claim as
stated. -/
theorem C6_counterexample :
    getLatestResponse docPriority = some "This is a long enough answer." ∧
    getLatestResponseSpecModel docPriority = none ∧
    getLatestResponse docPriority ≠ getLatestResponseSpecModel docPriority := by
  refine ⟨by decide, by decide, by decide⟩

/-- C6 amended: for input resolution, the first candidate yielding a
matching element wins (`List.findSome?` over `document.querySelector`).
For text extraction, candidates are tried in priority order, but the
winning candidate is the first whose LAST matching element has trimmed
text that is non-empty and longer than the 10-character minimum
(`acceptableText`); a candidate that matches elements with only
unacceptable text is skipped in favour of later candidates, and if no
candidate yields an acceptable text the sample is null. -/
theorem C6_amended_selector_priority (doc : Document) :
    getLatestResponse doc =
      responseTextSelectors.findSome? (fun sel => acceptableText doc sel) ∧
    resolveInput doc inputSelectors = inputSelectors.findSome? doc.query := by
  constructor
  · exact getLatestResponseAux_eq_findSome doc responseTextSelectors
  · exact resolveInput_eq_findSome doc inputSelectors

/-- C9: the baseline update is not conditioned on delivery. When the loop
stabilizes at tick `T` on content differing from the baseline,
`lastCapturedContent` is assigned the stabilized content before the send is
attempted, so the assignment persists when the send is skipped because the
context went invalid at send time (first conjunct) and when the send throws
and is swallowed (second conjunct) — in both cases nothing is delivered yet
the final baseline is `stream T`. Third conjunct: a later session over a
stream stabilizing on that same text is then suppressed (completed with no
emission) although the text was never delivered. -/
theorem C9_baseline_update_unconditional (stream : Nat → String) (T : Nat)
    (baseline : String) (chanOk : Nat → Bool)
    (hT : streak stream T = stableThreshold)
    (hbefore : ∀ u, u < T → streak stream u < stableThreshold)
    (hbound : T < maxTicks) (hne : stream T ≠ baseline) :
    waitForStreamingComplete ⟨false, baseline⟩ stream
        (fun _ => true) (fun _ => false) chanOk =
      (⟨false, stream T⟩, [], some (Outcome.completed T true)) ∧
    waitForStreamingComplete ⟨false, baseline⟩ stream
        (fun _ => true) (fun _ => true) (fun _ => false) =
      (⟨false, stream T⟩, [], some (Outcome.completed T true)) ∧
    waitForStreamingComplete ⟨false, stream T⟩ stream
        (fun _ => true) (fun _ => true) (fun _ => true) =
      (⟨false, stream T⟩, [], some (Outcome.completed T false)) := by
  refine ⟨?_, ?_, ?_⟩
  · have hrun := streamLoop_completes_from_zero stream
      (fun _ => true) (fun _ => false) chanOk T hT hbefore (fun u _ => rfl)
      baseline hbound
    rw [waitForStreamingComplete_not_capturing, hrun]
    unfold completionResult
    rw [if_pos hne]
    rfl
  · have hrun := streamLoop_completes_from_zero stream
      (fun _ => true) (fun _ => true) (fun _ => false) T hT hbefore (fun u _ => rfl)
      baseline hbound
    rw [waitForStreamingComplete_not_capturing, hrun]
    unfold completionResult
    rw [if_pos hne]
    rfl
  · have hrun := streamLoop_completes_from_zero stream
      (fun _ => true) (fun _ => true) (fun _ => true) T hT hbefore (fun u _ => rfl)
      (stream T) hbound
    rw [waitForStreamingComplete_not_capturing, hrun]
    unfold completionResult
    rw [if_neg (not_not_intro rfl)]

/-- Witness for C9: a stream constant at "NEVER DELIVERED TEXT" stabilizes
at tick 4; with the send skipped or throwing nothing is delivered, yet the
baseline becomes that text, and a follow-up session on the same text is
suppressed. -/
theorem C9_baseline_update_unconditional_witness :
    waitForStreamingComplete ⟨false, ""⟩ (fun _ => "NEVER DELIVERED TEXT")
        (fun _ => true) (fun _ => false) (fun _ => true) =
      (⟨false, "NEVER DELIVERED TEXT"⟩, [], some (Outcome.completed 4 true)) ∧
    waitForStreamingComplete ⟨false, ""⟩ (fun _ => "NEVER DELIVERED TEXT")
        (fun _ => true) (fun _ => true) (fun _ => false) =
      (⟨false, "NEVER DELIVERED TEXT"⟩, [], some (Outcome.completed 4 true)) ∧
    waitForStreamingComplete ⟨false, "NEVER DELIVERED TEXT"⟩
        (fun _ => "NEVER DELIVERED TEXT")
        (fun _ => true) (fun _ => true) (fun _ => true) =
      (⟨false, "NEVER DELIVERED TEXT"⟩, [], some (Outcome.completed 4 false)) :=
  C9_baseline_update_unconditional (fun _ => "NEVER DELIVERED TEXT") 4 ""
    (fun _ => true)
    (by decide)
    (by intro u hu; interval_cases u <;> decide)
    (by decide)
    (by decide)

/-- C10: snapshot idempotence. The response to `GET_LATEST_RESPONSE` is
`latestContent (getLatestResponse doc)`, a function of the DOM alone: the
global state is returned unchanged and nothing is sent (first conjunct),
and the response is identical across different global states, streams and
validity timelines (second conjunct) — hence repeated queries against an
unchanged DOM, with or without an active or finished session in between,
return the same result. -/
theorem C10_snapshot_idempotent (doc : Document) (g g2 : GlobalState)
    (stream stream2 : Nat → String) (c1 c2 c3 d1 d2 d3 : Nat → Bool) :
    handleMessage g doc stream c1 c2 c3 InMessage.getLatest =
      (OutResponse.latestContent (getLatestResponse doc), g, []) ∧
    (handleMessage g doc stream c1 c2 c3 InMessage.getLatest).1 =
      (handleMessage g2 doc stream2 d1 d2 d3 InMessage.getLatest).1 :=
  ⟨rfl, rfl⟩
